import Mathlib

/-!
Verification development for the lob_simulator repository.

Every definition below is a shallow embedding of the correspondingly named
Python entity from the sources under src/: Python floats are modelled by
rationals, Python ints by integers, dictionaries by total functions or by
association lists that preserve insertion order, and every use of the random
module or of numpy randomness is modelled by an explicit draw parameter.
Possibly non-terminating while loops are modelled with an explicit fuel
argument, where exhausting the fuel yields none.
-/

/-- Embedding of orders.OrderSide (enum with members BUY and SELL). -/
inductive OrderSide
  | buy
  | sell
deriving DecidableEq

/-- Embedding of orders.OrderType (enum with members LIMIT, MARKET, CANCEL). -/
inductive OrderType
  | LIMIT
  | MARKET
  | CANCEL
deriving DecidableEq

/-- The builtin round of Python: round half to even (bankers rounding),
used by order_book.OrderBook.update_reference_price and
alt_order_book.IndividualOrderBook.add_order. -/
def pyRound (q : ℚ) : ℤ :=
  if q - (⌊q⌋ : ℚ) = 1 / 2 then (if ⌊q⌋ % 2 = 0 then ⌊q⌋ else ⌊q⌋ + 1) else round q

/-- The string produced by the Python builtin str applied to an OrderSide
enum member, as passed by simulator.Simulator to the model handlers. -/
def pyStrOrderSide : OrderSide → String
  | OrderSide.buy => "OrderSide.BUY"
  | OrderSide.sell => "OrderSide.SELL"

/-- Embedding of order_book.OrderBook state.  The queue_sizes defaultdict
(missing keys read as 0) is modelled as a total function on (side, level). -/
structure OrderBook where
  K : Nat
  tick_size : ℚ
  reference_price : ℚ
  queue_sizes : OrderSide → ℤ → ℤ

/-- Embedding of order_book.OrderBook.__init__: reference price 0 and an
empty queue_sizes defaultdict. -/
def OrderBook.new_book (K : Nat) (tick_size : ℚ) : OrderBook :=
  { K := K, tick_size := tick_size, reference_price := 0, queue_sizes := fun _ _ => 0 }

/-- Embedding of order_book.OrderBook.update_queue_size: add change to the
entry at (side, level), then clamp that entry at 0. -/
def OrderBook.update_queue_size (b : OrderBook) (side : OrderSide) (level : ℤ)
    (change : ℤ) : OrderBook :=
  { b with queue_sizes := fun s l =>
      if s = side ∧ l = level then max 0 (b.queue_sizes side level + change)
      else b.queue_sizes s l }

/-- Embedding of order_book.OrderBook.get_queue_size. -/
def OrderBook.get_queue_size (b : OrderBook) (side : OrderSide) (level : ℤ) : ℤ :=
  b.queue_sizes side level

/-- The scan performed by get_best_bid and get_best_ask of
order_book.OrderBook: the first level in range(K) with a positive queue. -/
def OrderBook.find_best_level (b : OrderBook) (side : OrderSide) : Option Nat :=
  (List.range b.K).find? (fun level => decide (0 < b.get_queue_size side (level : ℤ)))

/-- Embedding of order_book.OrderBook.get_best_bid: price of the first
non-empty bid level, or none (the Python function falls through and returns
None when the whole side is empty in the window). -/
def OrderBook.get_best_bid (b : OrderBook) : Option ℚ :=
  (b.find_best_level OrderSide.buy).map
    (fun (level : Nat) => b.reference_price - (level : ℚ) * b.tick_size)

/-- Embedding of order_book.OrderBook.get_best_ask. -/
def OrderBook.get_best_ask (b : OrderBook) : Option ℚ :=
  (b.find_best_level OrderSide.sell).map
    (fun (level : Nat) => b.reference_price + (level : ℚ) * b.tick_size)

/-- Embedding of order_book.OrderBook.get_mid_price. -/
def OrderBook.get_mid_price (b : OrderBook) : Option ℚ :=
  match b.get_best_bid, b.get_best_ask with
  | some bb, some ba => some ((bb + ba) / 2)
  | _, _ => none

/-- Embedding of order_book.OrderBook.get_spread. -/
def OrderBook.get_spread (b : OrderBook) : Option ℚ :=
  match b.get_best_bid, b.get_best_ask with
  | some bb, some ba => some (ba - bb)
  | _, _ => none

/-- Embedding of order_book.OrderBook._shift_queues.  Every stored entry
(side, level, size) is re-keyed to level - shift for bids and level + shift
for asks, keeping only targets inside the range zero to K.  The Python code
builds the fresh dict new_queues in a pass over the old items and reassigns
the attribute inside the loop body; since the iterator ranges over the old
dict object and every iteration assigns the same new_queues object, the
observable result equals this one-pass rebuild (also when the dict is
empty, where both leave an empty mapping). -/
def OrderBook.shift_queues (b : OrderBook) (shift : ℤ) : OrderBook :=
  { b with queue_sizes := fun s l =>
      if 0 ≤ l ∧ l < (b.K : ℤ) then
        (match s with
         | OrderSide.buy => b.queue_sizes OrderSide.buy (l + shift)
         | OrderSide.sell => b.queue_sizes OrderSide.sell (l - shift))
      else 0 }

/-- Embedding of order_book.OrderBook.update_reference_price: the tick
distance is rounded with the Python builtin round; the queues are shifted
and the stored reference price replaced only when that distance is not 0
(the assignment to self.reference_price sits inside the if in the source). -/
def OrderBook.update_reference_price (b : OrderBook) (new_price : ℚ) : OrderBook :=
  let price_change := pyRound ((new_price - b.reference_price) / b.tick_size)
  if price_change ≠ 0 then
    { b.shift_queues price_change with reference_price := new_price }
  else b

/-- Embedding of order_book.OrderBook.get_order_book_state, including the
source formula bid_price = reference_price - level + tick_size (written
with + where the ask side uses *).  Levels with non-positive price are
skipped. -/
def OrderBook.get_order_book_state (b : OrderBook) :
    List (ℚ × ℤ) × List (ℚ × ℤ) :=
  ((List.range b.K).filterMap (fun (level : Nat) =>
      let bid_price := b.reference_price - (level : ℚ) + b.tick_size
      if 0 < bid_price then some (bid_price, b.queue_sizes OrderSide.buy (level : ℤ))
      else none),
   (List.range b.K).filterMap (fun (level : Nat) =>
      let ask_price := b.reference_price + (level : ℚ) * b.tick_size
      if 0 < ask_price then some (ask_price, b.queue_sizes OrderSide.sell (level : ℤ))
      else none))

/-- A finite sequence of update_queue_size calls applied in order, as issued
against the level book by its callers. -/
def OrderBook.apply_adjusts (b : OrderBook) (ops : List (OrderSide × ℤ × ℤ)) : OrderBook :=
  ops.foldl (fun bb op => bb.update_queue_size op.1 op.2.1 op.2.2) b

/-- Embedding of queue_reactive_model.QueueReactiveModel state: the numpy
int array order_book_state of length 2K (asks at indices K-1 down to 0,
bids at indices K up to 2K-1) together with the constructor parameters. -/
structure QueueReactiveModel where
  K : Nat
  delta : ℚ
  theta : ℚ
  theta_reinit : ℚ
  reference_price : ℚ
  order_book_state : List ℤ

/-- Embedding of QueueReactiveModel._shift_order_book.  For direction
"right" the source does state[1:] = state[:-1] followed by state[0] = draw,
which on a non-empty array equals prepending the draw to dropLast; for
"left" it does state[:-1] = state[1:] followed by state[-1] = draw, which
equals appending the draw to the tail.  The draw parameter stands for the
np.random.randint(0, 10) sample. -/
def QueueReactiveModel.shift_order_book (m : QueueReactiveModel) (direction : String)
    (draw : ℤ) : QueueReactiveModel :=
  if direction = "right" then
    { m with order_book_state := draw :: m.order_book_state.dropLast }
  else if direction = "left" then
    { m with order_book_state := m.order_book_state.tail ++ [draw] }
  else m

/-- Embedding of QueueReactiveModel.update_reference_price.  The parameter u
stands for the random.random() sample compared against theta, and draw for
the boundary replenishment sample used by the shift.  Index K-1 is the best
ask and index K the best bid. -/
def QueueReactiveModel.update_reference_price (m : QueueReactiveModel) (u : ℚ)
    (draw : ℤ) : QueueReactiveModel :=
  if u < m.theta then
    if m.order_book_state.getD (m.K - 1) 0 = 0 then
      ({ m with reference_price := m.reference_price + m.delta }).shift_order_book "right" draw
    else if m.order_book_state.getD m.K 0 = 0 then
      ({ m with reference_price := m.reference_price - m.delta }).shift_order_book "left" draw
    else m
  else m

/-- Embedding of QueueReactiveModel.handle_limit_order.  Level and volume
are Python ints, hence integers here; the side is the raw string compared
against the literals bid and ask. -/
def QueueReactiveModel.handle_limit_order (m : QueueReactiveModel) (side : String)
    (level volume : ℤ) : Except String QueueReactiveModel :=
  if ¬(side = "bid" ∨ side = "ask") ∨ level < 0 ∨ (m.K : ℤ) ≤ level ∨ volume ≤ 0 then
    Except.error "Invalid limit order parameters"
  else
    let index : Nat := if side = "bid" then m.K + level.toNat else m.K - 1 - level.toNat
    Except.ok { m with order_book_state :=
      m.order_book_state.set index (m.order_book_state.getD index 0 + volume) }

/-- Embedding of QueueReactiveModel.handle_market_order: consumes
min(volume, queue) from the best level at index K (side ask) or K-1. -/
def QueueReactiveModel.handle_market_order (m : QueueReactiveModel) (side : String)
    (volume : ℤ) : Except String QueueReactiveModel :=
  if ¬(side = "bid" ∨ side = "ask") ∨ volume ≤ 0 then
    Except.error "Invalid market order parameters"
  else
    let index : Nat := if side = "ask" then m.K else m.K - 1
    let q := m.order_book_state.getD index 0
    Except.ok { m with order_book_state := m.order_book_state.set index (q - min volume q) }

/-- Embedding of QueueReactiveModel.handle_cancellation: subtracts volume at
the indexed level and clamps at 0. -/
def QueueReactiveModel.handle_cancellation (m : QueueReactiveModel) (side : String)
    (level volume : ℤ) : Except String QueueReactiveModel :=
  if ¬(side = "bid" ∨ side = "ask") ∨ level < 0 ∨ (m.K : ℤ) ≤ level ∨ volume ≤ 0 then
    Except.error "Invalid cancellation parameters"
  else
    let index : Nat := if side = "bid" then m.K + level.toNat else m.K - 1 - level.toNat
    let q := m.order_book_state.getD index 0
    Except.ok { m with order_book_state := m.order_book_state.set index (max 0 (q - volume)) }

/-- Embedding of QueueReactiveModel.get_queue_size (no validation of the
side string in the source: anything other than bid takes the ask branch). -/
def QueueReactiveModel.get_queue_size (m : QueueReactiveModel) (side : String)
    (level : ℤ) : ℤ :=
  m.order_book_state.getD
    (if side = "bid" then m.K + level.toNat else m.K - 1 - level.toNat) 0

/-- Embedding of QueueReactiveModel.simulate_next_event.  The four
parameters stand for the four independent draws of the source:
random.choice over the three event type strings, random.choice over the two
side strings, random.randint(0, K-1) and random.randint(1, 10).  Note that
the function reads no book state and no intensity function. -/
def QueueReactiveModel.simulate_next_event (kd : Fin 3) (sd : Fin 2) (ld vd : ℤ) :
    String × String × ℤ × ℤ :=
  (if kd.val = 0 then "limit" else if kd.val = 1 then "market" else "cancel",
   if sd.val = 0 then "bid" else "ask", ld, vd)

/-- One iteration of the loop body of QueueReactiveModel.run_simulation:
draw the next event, dispatch to the matching handler, then run
update_reference_price with its own draws. -/
def QueueReactiveModel.run_step (m : QueueReactiveModel) (kd : Fin 3) (sd : Fin 2)
    (ld vd : ℤ) (u : ℚ) (draw : ℤ) : Except String QueueReactiveModel :=
  match QueueReactiveModel.simulate_next_event kd sd ld vd with
  | (event_type, side, level, volume) =>
    (if event_type = "limit" then m.handle_limit_order side level volume
     else if event_type = "market" then m.handle_market_order side volume
     else m.handle_cancellation side level volume).map
      (fun m2 => m2.update_reference_price u draw)

/-- The random draws consumed by one step of simulator.Simulator:
u_event feeds random.choices over the weights 0.6, 0.2, 0.2; sd the uniform
side choice; ld is the randint(0, K-1) level and vd the randint(1, 10)
volume. -/
structure StepDraws where
  u_event : ℚ
  sd : Fin 2
  ld : ℤ
  vd : ℤ

/-- Embedding of simulator.Simulator state. -/
structure Simulator where
  model : QueueReactiveModel
  order_book : OrderBook
  time : ℚ

/-- A snapshot as assembled by Simulator._get_current_state. -/
structure Snapshot where
  time : ℚ
  reference_price : ℚ
  mid_price : Option ℚ
  spread : Option ℚ
  order_book_state : List (ℚ × ℤ) × List (ℚ × ℤ)

/-- Embedding of Simulator._generate_next_event: random.choices with
weights 0.6, 0.2, 0.2 selects limit when the uniform sample is below 3/5,
market below 4/5, cancel otherwise; side, level and volume are drawn
uniformly and independently. -/
def Simulator.generate_next_event (_sim : Simulator) (d : StepDraws) :
    String × OrderSide × ℤ × ℤ :=
  (if d.u_event < 3 / 5 then "limit"
   else if d.u_event < 4 / 5 then "market" else "cancel",
   if d.sd.val = 0 then OrderSide.buy else OrderSide.sell, d.ld, d.vd)

/-- Embedding of Simulator._process_event.  The side is forwarded through
the Python builtin str, producing OrderSide.BUY or OrderSide.SELL, and for
the market branch the source passes level where the handler expects the
volume. -/
def Simulator.process_event (sim : Simulator) (ev : String × OrderSide × ℤ × ℤ) :
    Except String Simulator :=
  match ev with
  | (event_type, side, level, volume) =>
    if event_type = "limit" then
      (sim.model.handle_limit_order (pyStrOrderSide side) level volume).map
        (fun m => { sim with model := m })
    else if event_type = "market" then
      (sim.model.handle_market_order (pyStrOrderSide side) level).map
        (fun m => { sim with model := m })
    else if event_type = "cancel" then
      (sim.model.handle_cancellation (pyStrOrderSide side) level volume).map
        (fun m => { sim with model := m })
    else Except.ok sim

/-- Embedding of Simulator._update_order_book: push the model reference
price into the level book, then walk the sides and levels in order and
adjust each queue to the model value (reading the model through str(side),
exactly as the source does). -/
def Simulator.update_order_book (sim : Simulator) : Simulator :=
  let ob1 := sim.order_book.update_reference_price sim.model.reference_price
  let pairs := [OrderSide.buy, OrderSide.sell].flatMap
    (fun s => (List.range sim.model.K).map (fun l => (s, (l : ℤ))))
  let ob2 := pairs.foldl (fun ob sl =>
      ob.update_queue_size sl.1 sl.2
        (sim.model.get_queue_size (pyStrOrderSide sl.1) sl.2 - ob.get_queue_size sl.1 sl.2))
    ob1
  { sim with order_book := ob2 }

/-- Embedding of Simulator._get_current_state. -/
def Simulator.get_current_state (sim : Simulator) : Snapshot :=
  { time := sim.time,
    reference_price := sim.order_book.reference_price,
    mid_price := sim.order_book.get_mid_price,
    spread := sim.order_book.get_spread,
    order_book_state := sim.order_book.get_order_book_state }

/-- One iteration of the loop body of Simulator.run_simulation: generate an
event, process it, update the level book, take the snapshot, advance time
by 1.  A Python exception raised by a handler propagates as an error. -/
def Simulator.step (sim : Simulator) (d : StepDraws) :
    Except String (Snapshot × Simulator) :=
  (sim.process_event (sim.generate_next_event d)).map (fun s1 =>
    let s2 := s1.update_order_book
    (s2.get_current_state, { s2 with time := s2.time + 1 }))

/-- The loop of Simulator.run_simulation, indexed by the remaining step
count and the current step number feeding the draw stream. -/
def Simulator.run_simulation_from (draws : Nat → StepDraws) :
    Nat → Nat → Simulator → Except String (List Snapshot)
  | 0, _, _ => Except.ok []
  | n + 1, i, sim =>
    match Simulator.step sim (draws i) with
    | Except.error e => Except.error e
    | Except.ok sn =>
      (Simulator.run_simulation_from draws n (i + 1) sn.2).map (fun rest => sn.1 :: rest)

/-- Embedding of Simulator.run_simulation(num_steps): runs num_steps loop
iterations and collects the snapshots in order; an exception raised by any
step aborts the run with no return value. -/
def Simulator.run_simulation (sim : Simulator) (draws : Nat → StepDraws)
    (num_steps : Nat) : Except String (List Snapshot) :=
  Simulator.run_simulation_from draws num_steps 0 sim

/-- Order record of alt_order_book (a Python dataclass).  The Python object
identity id(order) is modelled by the explicit oid field, unique per
inserted order. -/
structure MOrder where
  oid : Nat
  otype : OrderType
  side : OrderSide
  price : ℚ
  volume : ℤ
deriving DecidableEq

/-- The bids and asks dicts of alt_order_book.IndividualOrderBook, modelled
as insertion-ordered association lists from rounded price to the resting
queue at that price. -/
abbrev PriceDict : Type := List (ℚ × List MOrder)

/-- Python dict read: the value at the key, if present. -/
def dictFind (d : PriceDict) (k : ℚ) : Option (List MOrder) :=
  (d.find? (fun p => decide (p.1 = k))).map (fun p => p.2)

/-- Python membership test key in dict. -/
def dictContains (d : PriceDict) (k : ℚ) : Bool :=
  (dictFind d k).isSome

/-- Python dict write: replace the value at an existing key, else append
the new key at the end (dicts preserve insertion order). -/
def dictSet (d : PriceDict) (k : ℚ) (v : List MOrder) : PriceDict :=
  if dictContains d k then
    d.map (fun p => if p.1 = k then (k, v) else p)
  else d ++ [(k, v)]

/-- Lookup in the order_id_to_price dict. -/
def idLookup (d : List (Nat × ℚ)) (k : Nat) : Option ℚ :=
  (d.find? (fun p => decide (p.1 = k))).map (fun p => p.2)

/-- Write to the order_id_to_price dict. -/
def idSet (d : List (Nat × ℚ)) (k : Nat) (v : ℚ) : List (Nat × ℚ) :=
  if (idLookup d k).isSome then
    d.map (fun p => if p.1 = k then (k, v) else p)
  else d ++ [(k, v)]

/-- Python del on the order_id_to_price dict. -/
def idDel (d : List (Nat × ℚ)) (k : Nat) : List (Nat × ℚ) :=
  d.filter (fun p => decide (¬ p.1 = k))

/-- Embedding of alt_order_book.IndividualOrderBook state. -/
structure IndividualOrderBook where
  tick_size : ℚ
  bids : PriceDict
  asks : PriceDict
  order_id_to_price : List (Nat × ℚ)
deriving DecidableEq

/-- Embedding of IndividualOrderBook.__init__. -/
def IndividualOrderBook.new_book (tick_size : ℚ) : IndividualOrderBook :=
  { tick_size := tick_size, bids := [], asks := [], order_id_to_price := [] }

/-- Embedding of IndividualOrderBook.add_order, including the source price
key round(order.price / tick_size) + tick_size (with + where bucketing to
the nearest tick would multiply).  Only limit orders are accepted; the
order is appended to the tail of the queue at its price key and its
identity is recorded in order_id_to_price. -/
def IndividualOrderBook.add_order (b : IndividualOrderBook) (o : MOrder) :
    Except String IndividualOrderBook :=
  if o.otype ≠ OrderType.LIMIT then
    Except.error "Only limit orders can be added to the order book"
  else
    let price := (pyRound (o.price / b.tick_size) : ℚ) + b.tick_size
    let b2 :=
      if o.side = OrderSide.buy then
        { b with bids := dictSet b.bids price ((dictFind b.bids price).getD [] ++ [o]) }
      else
        { b with asks := dictSet b.asks price ((dictFind b.asks price).getD [] ++ [o]) }
    Except.ok { b2 with order_id_to_price := idSet b2.order_id_to_price o.oid price }

/-- The enumerate-and-pop loop inside IndividualOrderBook.cancel_order:
remove the first order with the given identity, preserving the order of the
remainder. -/
def removeById : List MOrder → Nat → List MOrder × Option MOrder
  | [], _ => ([], none)
  | o :: rest, oid =>
    if o.oid = oid then (rest, some o)
    else
      let r := removeById rest oid
      (o :: r.1, r.2)

/-- Embedding of IndividualOrderBook.cancel_order.  As in the source, the
searched side is bids whenever the price key exists in the bids dict, and
asks otherwise; in the asks branch the defaultdict access side[price]
inserts an empty queue when the key is absent.  Returns the updated book
together with the removed order, or none. -/
def IndividualOrderBook.cancel_order (b : IndividualOrderBook) (order_id : Nat) :
    IndividualOrderBook × Option MOrder :=
  match idLookup b.order_id_to_price order_id with
  | none => (b, none)
  | some price =>
    if dictContains b.bids price then
      let q := (dictFind b.bids price).getD []
      let r := removeById q order_id
      match r.2 with
      | some o =>
        ({ b with bids := dictSet b.bids price r.1,
                  order_id_to_price := idDel b.order_id_to_price order_id }, some o)
      | none => (b, none)
    else
      let asks1 := if dictContains b.asks price then b.asks else b.asks ++ [(price, [])]
      let q := (dictFind b.asks price).getD []
      let r := removeById q order_id
      match r.2 with
      | some o =>
        ({ b with asks := dictSet asks1 price r.1,
                  order_id_to_price := idDel b.order_id_to_price order_id }, some o)
      | none => ({ b with asks := asks1 }, none)

/-- The fill record Order(type=MARKET, side, price, volume) appended to
matched_orders; the fresh Python object identity is irrelevant (fills are
never inserted into a book) and is modelled as 0. -/
def mkFill (aggSide : OrderSide) (price : ℚ) (vol : ℤ) : MOrder :=
  { oid := 0, otype := OrderType.MARKET, side := aggSide, price := price, volume := vol }

/-- The inner while loop of IndividualOrderBook.match_market_order, with
fuel: while side[price] and remaining_volume > 0, consume the queue head,
record the fill, decrement the resting volume in place, and cancel the
resting order when its volume reaches 0.  Fuel exhaustion yields none. -/
def matchWhileLoop : Nat → IndividualOrderBook → OrderSide → ℚ → ℤ → List MOrder →
    Option (IndividualOrderBook × ℤ × List MOrder)
  | 0, _, _, _, _, _ => none
  | fuel + 1, b, aggSide, price, remaining, acc =>
    let q := (dictFind (if aggSide = OrderSide.buy then b.asks else b.bids) price).getD []
    if q = [] ∨ remaining ≤ 0 then some (b, remaining, acc)
    else
      match q with
      | [] => some (b, remaining, acc)
      | mo :: rest =>
        let mv := min mo.volume remaining
        let acc2 := acc ++ [mkFill aggSide price mv]
        let remaining2 := remaining - mv
        let mo2 : MOrder := { mo with volume := mo.volume - mv }
        let b2 :=
          if aggSide = OrderSide.buy then
            { b with asks := dictSet b.asks price (mo2 :: rest) }
          else
            { b with bids := dictSet b.bids price (mo2 :: rest) }
        let b3 := if mo2.volume = 0 then (b2.cancel_order mo.oid).1 else b2
        matchWhileLoop fuel b3 aggSide price remaining2 acc2

/-- The outer for loop of match_market_order over the price snapshot, with
the break when the remaining volume reaches 0. -/
def matchPricesLoop (fuel : Nat) (aggSide : OrderSide) :
    List ℚ → IndividualOrderBook → ℤ → List MOrder →
    Option (IndividualOrderBook × ℤ × List MOrder)
  | [], b, remaining, acc => some (b, remaining, acc)
  | price :: prices, b, remaining, acc =>
    match matchWhileLoop fuel b aggSide price remaining acc with
    | none => none
    | some r =>
      if r.2.1 = 0 then some r
      else matchPricesLoop fuel aggSide prices r.1 r.2.1 r.2.2

/-- Insertion step of a stable ascending sort on prices. -/
def insertAsc (x : ℚ) : List ℚ → List ℚ
  | [] => [x]
  | y :: ys => if x ≤ y then x :: y :: ys else y :: insertAsc x ys

/-- The Python sorted builtin on a list of prices (ascending). -/
def sortAsc (l : List ℚ) : List ℚ :=
  l.foldr insertAsc []

/-- Embedding of IndividualOrderBook.match_market_order with fuel for the
inner while loops.  The opposite side is asks for a buy aggressor, and the
source walks sorted(keys, reverse=(side == BUY)): descending prices for a
buy.  Returns the final book and the fill tape, or none when some while
loop never exits. -/
def IndividualOrderBook.match_market_order (b : IndividualOrderBook) (o : MOrder)
    (fuel : Nat) : Option (IndividualOrderBook × List MOrder) :=
  let sideDict := if o.side = OrderSide.buy then b.asks else b.bids
  let prices := if o.side = OrderSide.buy then (sortAsc (sideDict.map (fun p => p.1))).reverse
                else sortAsc (sideDict.map (fun p => p.1))
  (matchPricesLoop fuel o.side prices b o.volume []).map (fun r => (r.1, r.2.2))

/-- The classes of intensity_functions.py, for the abstract-class analysis
of the factory. -/
inductive PyIntensityClass
  | IntensityFunction
  | ConstantIntensity
  | LinearIntensity
  | ExponentialIntensity
  | CustomIntensity
  | LimitOrderIntensity
  | CancellationIntensity
  | MarketOrderIntensity
deriving DecidableEq

/-- The names of the methods given a concrete body in each class of
intensity_functions.py.  ConstantIntensity defines _call (a plain method),
not __call__; every other subclass overrides __call__. -/
def class_methods : PyIntensityClass → List String
  | PyIntensityClass.IntensityFunction => []
  | PyIntensityClass.ConstantIntensity => ["__init__", "_call"]
  | PyIntensityClass.LinearIntensity => ["__init__", "__call__"]
  | PyIntensityClass.ExponentialIntensity => ["__init__", "__call__"]
  | PyIntensityClass.CustomIntensity => ["__init__", "__call__"]
  | PyIntensityClass.LimitOrderIntensity => ["__init__", "__call__"]
  | PyIntensityClass.CancellationIntensity => ["__init__", "__call__"]
  | PyIntensityClass.MarketOrderIntensity => ["__init__", "__call__"]

/-- The abstract methods declared in the base class IntensityFunction:
__call__ carries the abstractmethod decorator. -/
def base_abstract_methods : List String :=
  ["__call__"]

/-- The abstract methods a subclass of IntensityFunction still leaves
without a concrete override (the __abstractmethods__ set computed by
ABCMeta). -/
def remaining_abstract (c : PyIntensityClass) : List String :=
  base_abstract_methods.filter (fun nm => decide (¬ (class_methods c).contains nm))

/-- Python instantiation of a subclass of an ABC: raises TypeError exactly
when some abstract method has no concrete override, before __init__ ever
sees the keyword arguments. -/
def instantiate_class (c : PyIntensityClass) : Except String PyIntensityClass :=
  if remaining_abstract c = [] then Except.ok c
  else Except.error "TypeError: abstract method not implemented"

/-- Embedding of intensity_functions.create_intensity_function: dispatch on
the variant name and instantiate the class; the kwargs are forwarded to
__init__, which is only reached when instantiation succeeds, so they do not
influence the TypeError. -/
def create_intensity_function (function_type : String)
    (_kwargs : List (String × ℚ)) : Except String PyIntensityClass :=
  if function_type = "constant" then instantiate_class PyIntensityClass.ConstantIntensity
  else if function_type = "linear" then instantiate_class PyIntensityClass.LinearIntensity
  else if function_type = "exponential" then instantiate_class PyIntensityClass.ExponentialIntensity
  else if function_type = "limit_order" then instantiate_class PyIntensityClass.LimitOrderIntensity
  else if function_type = "cancellation" then instantiate_class PyIntensityClass.CancellationIntensity
  else if function_type = "market_order" then instantiate_class PyIntensityClass.MarketOrderIntensity
  else if function_type = "custom" then instantiate_class PyIntensityClass.CustomIntensity
  else Except.error "Unknown intensity function type"

/-- Concrete level book used as witness input: K = 2, tick 1, a unit of
depth at level 0 on both sides, built through the public mutators. -/
def lockedBook : OrderBook :=
  ((OrderBook.new_book 2 1).update_queue_size OrderSide.buy 0 1).update_queue_size
    OrderSide.sell 0 1

/-- Witness level book for the non-negativity claim. -/
def c2ExampleBook : OrderBook :=
  OrderBook.new_book 2 1

/-- Witness adjustment sequence: an addition, an over-large cancellation,
and an addition on the other side. -/
def c2ExampleOps : List (OrderSide × ℤ × ℤ) :=
  [(OrderSide.buy, 0, 5), (OrderSide.buy, 0, -9), (OrderSide.sell, 1, 3)]

/-- Witness model for the shift and reference-price claims: K = 1, an empty
best ask (index K-1 = 0) and a non-empty best bid (index K = 1). -/
def exModel : QueueReactiveModel :=
  { K := 1, delta := 1, theta := 1, theta_reinit := 0, reference_price := 0,
    order_book_state := [0, 1] }

/-- A resting buy limit order at raw price 1. -/
def exOrderBuy : MOrder :=
  { oid := 1, otype := OrderType.LIMIT, side := OrderSide.buy, price := 1, volume := 1 }

/-- A resting sell limit order at raw price 1: with tick 1 it lands on the
same rounded price key 2 as the buy order. -/
def exOrderSell : MOrder :=
  { oid := 2, otype := OrderType.LIMIT, side := OrderSide.sell, price := 1, volume := 1 }

/-- A buy market order whose volume 2 exceeds the resting ask volume 1. -/
def exAggressor : MOrder :=
  { oid := 3, otype := OrderType.MARKET, side := OrderSide.buy, price := 0, volume := 2 }

/-- The empty matching book with tick 1. -/
def emptyIndividualBook : IndividualOrderBook :=
  IndividualOrderBook.new_book 1

/-- The matching book after adding exOrderBuy and exOrderSell: both sides
hold the price key 2. -/
def crossedBook : IndividualOrderBook :=
  { tick_size := 1, bids := [(2, [exOrderBuy])], asks := [(2, [exOrderSell])],
    order_id_to_price := [(1, 2), (2, 2)] }

/-- The resting sell order once its volume has been consumed down to 0. -/
def stuckSell : MOrder :=
  { exOrderSell with volume := 0 }

/-- The book state in which the matching loop is stuck: the consumed sell
order could not be cancelled (its price key also lives in bids) and remains
at the head of the ask queue with volume 0. -/
def stuckBook : IndividualOrderBook :=
  { crossedBook with asks := [(2, [stuckSell])] }

/-- Witness simulator state: fresh model and level book, time 0. -/
def exSimulator : Simulator :=
  { model := exModel, order_book := OrderBook.new_book 1 1, time := 0 }

/-- Witness draw record. -/
def exDraws : StepDraws :=
  { u_event := 0, sd := 0, ld := 0, vd := 1 }

/-- The matching book after adding only exOrderBuy. -/
def book1 : IndividualOrderBook :=
  { tick_size := 1, bids := [(2, [exOrderBuy])], asks := [], order_id_to_price := [(1, 2)] }

theorem getD_dropLast (l : List ℤ) (i : Nat) (h : i + 1 < l.length) :
    l.dropLast.getD i 0 = l.getD i 0 := by
  induction l generalizing i with
  | nil => simp at h
  | cons a t ih =>
    cases t with
    | nil => simp at h
    | cons b t2 =>
      cases i with
      | zero => rfl
      | succ j =>
        have h2 : j + 1 < (b :: t2).length := by
          simp only [List.length_cons] at h ⊢
          omega
        have hrec := ih j h2
        calc (a :: b :: t2).dropLast.getD (j + 1) 0
            = (b :: t2).dropLast.getD j 0 := rfl
          _ = (b :: t2).getD j 0 := hrec
          _ = (a :: b :: t2).getD (j + 1) 0 := rfl

theorem sum_dropLast_getLastD (l : List ℤ) (h : l ≠ []) :
    l.sum = l.dropLast.sum + l.getLastD 0 := by
  induction l with
  | nil => cases h rfl
  | cons a t ih =>
    cases t with
    | nil => simp
    | cons b t2 =>
      have ih2 := ih (by simp)
      have h1 : (a :: b :: t2).dropLast = a :: (b :: t2).dropLast := rfl
      have h2 : (a :: b :: t2).getLastD 0 = (b :: t2).getLastD 0 := rfl
      rw [List.sum_cons, ih2, h1, List.sum_cons, h2]
      ring

theorem getD_tail (l : List ℤ) (i : Nat) : l.tail.getD i 0 = l.getD (i + 1) 0 := by
  cases l <;> rfl

theorem getD_append_left (l1 l2 : List ℤ) (i : Nat) (h : i < l1.length) :
    (l1 ++ l2).getD i 0 = l1.getD i 0 := by
  induction l1 generalizing i with
  | nil => simp at h
  | cons a t ih =>
    cases i with
    | zero => rfl
    | succ j =>
      have h2 : j < t.length := by
        simp only [List.length_cons] at h
        omega
      calc ((a :: t) ++ l2).getD (j + 1) 0 = (t ++ l2).getD j 0 := rfl
        _ = t.getD j 0 := ih j h2
        _ = (a :: t).getD (j + 1) 0 := rfl

theorem getD_append_at_length (l : List ℤ) (d : ℤ) :
    (l ++ [d]).getD l.length 0 = d := by
  induction l with
  | nil => rfl
  | cons a t ih => simp [ih]

theorem sum_headD_tail (l : List ℤ) (h : l ≠ []) :
    l.sum = l.headD 0 + l.tail.sum := by
  cases l with
  | nil => cases h rfl
  | cons a t => simp

theorem shift_keeps_reference_price (m : QueueReactiveModel) (direction : String)
    (draw : ℤ) :
    (m.shift_order_book direction draw).reference_price = m.reference_price := by
  unfold QueueReactiveModel.shift_order_book
  split_ifs <;> rfl

theorem handle_limit_order_set_theta_reinit (m : QueueReactiveModel) (t : ℚ)
    (side : String) (level volume : ℤ) :
    QueueReactiveModel.handle_limit_order { m with theta_reinit := t } side level volume
      = (QueueReactiveModel.handle_limit_order m side level volume).map
          (fun m2 => { m2 with theta_reinit := t }) := by
  unfold QueueReactiveModel.handle_limit_order
  dsimp only
  split_ifs <;> rfl

theorem handle_market_order_set_theta_reinit (m : QueueReactiveModel) (t : ℚ)
    (side : String) (volume : ℤ) :
    QueueReactiveModel.handle_market_order { m with theta_reinit := t } side volume
      = (QueueReactiveModel.handle_market_order m side volume).map
          (fun m2 => { m2 with theta_reinit := t }) := by
  unfold QueueReactiveModel.handle_market_order
  dsimp only
  split_ifs <;> rfl

theorem handle_cancellation_set_theta_reinit (m : QueueReactiveModel) (t : ℚ)
    (side : String) (level volume : ℤ) :
    QueueReactiveModel.handle_cancellation { m with theta_reinit := t } side level volume
      = (QueueReactiveModel.handle_cancellation m side level volume).map
          (fun m2 => { m2 with theta_reinit := t }) := by
  unfold QueueReactiveModel.handle_cancellation
  dsimp only
  split_ifs <;> rfl

theorem update_reference_price_set_theta_reinit (m : QueueReactiveModel) (t : ℚ)
    (u : ℚ) (draw : ℤ) :
    QueueReactiveModel.update_reference_price { m with theta_reinit := t } u draw
      = { m.update_reference_price u draw with theta_reinit := t } := by
  unfold QueueReactiveModel.update_reference_price QueueReactiveModel.shift_order_book
  dsimp only
  split_ifs <;> rfl

theorem run_step_set_theta_reinit (m : QueueReactiveModel) (t : ℚ) (kd : Fin 3)
    (sd : Fin 2) (ld vd : ℤ) (u : ℚ) (draw : ℤ) :
    QueueReactiveModel.run_step { m with theta_reinit := t } kd sd ld vd u draw
      = (QueueReactiveModel.run_step m kd sd ld vd u draw).map
          (fun m2 => { m2 with theta_reinit := t }) := by
  unfold QueueReactiveModel.run_step
  dsimp only
  split_ifs with h1 h2
  · rw [handle_limit_order_set_theta_reinit]
    cases QueueReactiveModel.handle_limit_order m _ _ _ with
    | error e => rfl
    | ok m2 =>
      dsimp [Except.map]
      rw [update_reference_price_set_theta_reinit]
  · rw [handle_market_order_set_theta_reinit]
    cases QueueReactiveModel.handle_market_order m _ _ with
    | error e => rfl
    | ok m2 =>
      dsimp [Except.map]
      rw [update_reference_price_set_theta_reinit]
  · rw [handle_cancellation_set_theta_reinit]
    cases QueueReactiveModel.handle_cancellation m _ _ _ with
    | error e => rfl
    | ok m2 =>
      dsimp [Except.map]
      rw [update_reference_price_set_theta_reinit]

theorem pyStr_not_bid_ask (side : OrderSide) :
    ¬(pyStrOrderSide side = "bid" ∨ pyStrOrderSide side = "ask") := by
  cases side <;> decide

theorem handle_limit_order_invalid_side (m : QueueReactiveModel) (side : String)
    (level volume : ℤ) (h : ¬(side = "bid" ∨ side = "ask")) :
    m.handle_limit_order side level volume
      = Except.error "Invalid limit order parameters" := by
  unfold QueueReactiveModel.handle_limit_order
  rw [if_pos (Or.inl h)]

theorem handle_market_order_invalid_side (m : QueueReactiveModel) (side : String)
    (volume : ℤ) (h : ¬(side = "bid" ∨ side = "ask")) :
    m.handle_market_order side volume
      = Except.error "Invalid market order parameters" := by
  unfold QueueReactiveModel.handle_market_order
  rw [if_pos (Or.inl h)]

theorem handle_cancellation_invalid_side (m : QueueReactiveModel) (side : String)
    (level volume : ℤ) (h : ¬(side = "bid" ∨ side = "ask")) :
    m.handle_cancellation side level volume
      = Except.error "Invalid cancellation parameters" := by
  unfold QueueReactiveModel.handle_cancellation
  rw [if_pos (Or.inl h)]

theorem simulator_step_errors (sim : Simulator) (d : StepDraws) :
    ∃ msg, sim.step d = Except.error msg := by
  unfold Simulator.step Simulator.generate_next_event Simulator.process_event
  dsimp only
  by_cases h1 : d.u_event < 3 / 5
  · refine ⟨"Invalid limit order parameters", ?_⟩
    rw [if_pos h1, if_pos rfl,
      handle_limit_order_invalid_side _ _ _ _ (pyStr_not_bid_ask _)]
    rfl
  · by_cases h2 : d.u_event < 4 / 5
    · refine ⟨"Invalid market order parameters", ?_⟩
      rw [if_neg h1, if_pos h2, if_neg (by decide), if_pos rfl,
        handle_market_order_invalid_side _ _ _ (pyStr_not_bid_ask _)]
      rfl
    · refine ⟨"Invalid cancellation parameters", ?_⟩
      rw [if_neg h1, if_neg h2, if_neg (by decide), if_neg (by decide), if_pos rfl,
        handle_cancellation_invalid_side _ _ _ _ (pyStr_not_bid_ask _)]
      rfl

theorem add_order_buy_eq : emptyIndividualBook.add_order exOrderBuy = Except.ok book1 := by
  unfold IndividualOrderBook.add_order
  have hprice : (pyRound (exOrderBuy.price / emptyIndividualBook.tick_size) : ℚ)
      + emptyIndividualBook.tick_size = 2 := by
    norm_num [exOrderBuy, emptyIndividualBook, IndividualOrderBook.new_book, pyRound]
  rw [if_neg (by decide)]
  dsimp only
  rw [hprice]
  rfl

theorem add_order_sell_eq : book1.add_order exOrderSell = Except.ok crossedBook := by
  unfold IndividualOrderBook.add_order
  have hprice : (pyRound (exOrderSell.price / book1.tick_size) : ℚ)
      + book1.tick_size = 2 := by
    norm_num [exOrderSell, book1, pyRound]
  rw [if_neg (by decide)]
  dsimp only
  rw [hprice]
  rfl

theorem crossedBook_reachable :
    (emptyIndividualBook.add_order exOrderBuy).bind
      (fun b2 => b2.add_order exOrderSell) = Except.ok crossedBook := by
  rw [add_order_buy_eq]
  exact add_order_sell_eq

theorem matchWhile_stuck (n : Nat) :
    ∀ acc, matchWhileLoop n stuckBook OrderSide.buy 2 1 acc = none := by
  induction n with
  | zero => intro acc; rfl
  | succ k ih =>
    intro acc
    have hstep : matchWhileLoop (k + 1) stuckBook OrderSide.buy 2 1 acc
        = matchWhileLoop k stuckBook OrderSide.buy 2 1
            (acc ++ [mkFill OrderSide.buy 2 0]) := rfl
    rw [hstep]
    exact ih _

theorem matchWhile_crossed_none (fuel : Nat) :
    matchWhileLoop fuel crossedBook OrderSide.buy 2 2 [] = none := by
  cases fuel with
  | zero => rfl
  | succ k =>
    have hstep : matchWhileLoop (k + 1) crossedBook OrderSide.buy 2 2 []
        = matchWhileLoop k stuckBook OrderSide.buy 2 1 [mkFill OrderSide.buy 2 1] := rfl
    rw [hstep]
    exact matchWhile_stuck k _

/-- C1: the event generator of the model draws the event kind by a uniform
choice among the three kind strings, one draw out of the three equiprobable
draws per kind, for every value of the other draws; the definition of
simulate_next_event takes no book state and evaluates no intensity
function, so the selection cannot be the rate-weighted categorical draw
with exponential waiting time the claim requires. -/
theorem c1_event_kind_uniform_not_rate_weighted (sd : Fin 2) (ld vd : ℤ) :
    ((List.finRange 3).countP
        (fun kd => (QueueReactiveModel.simulate_next_event kd sd ld vd).1 = "limit") = 1)
    ∧ ((List.finRange 3).countP
        (fun kd => (QueueReactiveModel.simulate_next_event kd sd ld vd).1 = "market") = 1)
    ∧ ((List.finRange 3).countP
        (fun kd => (QueueReactiveModel.simulate_next_event kd sd ld vd).1 = "cancel") = 1) := by
  refine ⟨?_, ?_, ?_⟩ <;> rfl

/-- C2: starting from any level book whose queue sizes are all
non-negative, any finite sequence of update_queue_size calls with arbitrary
integer deltas leaves every queue size non-negative; each prefix of the
sequence is itself such a sequence, so every intermediate state is covered. -/
theorem c2_adjust_keeps_queues_nonneg (b : OrderBook)
    (h : ∀ s l, 0 ≤ b.queue_sizes s l) (ops : List (OrderSide × ℤ × ℤ)) :
    ∀ s l, 0 ≤ (b.apply_adjusts ops).queue_sizes s l := by
  induction ops generalizing b with
  | nil => exact h
  | cons op rest ih =>
    have hstep : ∀ s l, 0 ≤ (b.update_queue_size op.1 op.2.1 op.2.2).queue_sizes s l := by
      intro s l
      dsimp [OrderBook.update_queue_size]
      split_ifs with hc
      · exact le_max_left 0 _
      · exact h s l
    have htail := ih (b.update_queue_size op.1 op.2.1 op.2.2) hstep
    simpa [OrderBook.apply_adjusts] using htail

theorem c2_adjust_keeps_queues_nonneg_witness :
    (∀ s l, 0 ≤ c2ExampleBook.queue_sizes s l)
    ∧ 0 ≤ (c2ExampleBook.apply_adjusts c2ExampleOps).queue_sizes OrderSide.buy 0 :=
  ⟨fun _ _ => le_refl 0,
   c2_adjust_keeps_queues_nonneg c2ExampleBook (fun _ _ => le_refl 0) c2ExampleOps
     OrderSide.buy 0⟩

/-- C3: for a model state of length 2K, each shift direction moves every
level exactly one index over, writes the fresh draw into the vacated
boundary slot, drops the one slot pushed out of the window, and the total
volume changes exactly by the draw minus the dropped slot. -/
theorem c3_shift_frame_effect (m : QueueReactiveModel) (hK : 0 < m.K)
    (hlen : m.order_book_state.length = 2 * m.K) (draw : ℤ) :
    ((m.shift_order_book "right" draw).order_book_state.length = 2 * m.K)
    ∧ ((m.shift_order_book "right" draw).order_book_state.getD 0 0 = draw)
    ∧ (∀ i, 0 < i → i < 2 * m.K →
        (m.shift_order_book "right" draw).order_book_state.getD i 0
          = m.order_book_state.getD (i - 1) 0)
    ∧ ((m.shift_order_book "right" draw).order_book_state.sum
        = m.order_book_state.sum - m.order_book_state.getLastD 0 + draw)
    ∧ ((m.shift_order_book "left" draw).order_book_state.length = 2 * m.K)
    ∧ ((m.shift_order_book "left" draw).order_book_state.getD (2 * m.K - 1) 0 = draw)
    ∧ (∀ i, i < 2 * m.K - 1 →
        (m.shift_order_book "left" draw).order_book_state.getD i 0
          = m.order_book_state.getD (i + 1) 0)
    ∧ ((m.shift_order_book "left" draw).order_book_state.sum
        = m.order_book_state.sum - m.order_book_state.headD 0 + draw) := by
  have hne : m.order_book_state ≠ [] := by
    intro h0
    rw [h0] at hlen
    simp at hlen
    omega
  have hr : (m.shift_order_book "right" draw).order_book_state
      = draw :: m.order_book_state.dropLast := by
    unfold QueueReactiveModel.shift_order_book
    rw [if_pos rfl]
  have hl : (m.shift_order_book "left" draw).order_book_state
      = m.order_book_state.tail ++ [draw] := by
    unfold QueueReactiveModel.shift_order_book
    rw [if_neg (by decide), if_pos rfl]
  have htl : m.order_book_state.tail.length = 2 * m.K - 1 := by
    rw [List.length_tail, hlen]
  refine ⟨?_, ?_, ?_, ?_, ?_, ?_, ?_, ?_⟩
  · rw [hr]
    simp only [List.length_cons, List.length_dropLast, hlen]
    omega
  · rw [hr]; rfl
  · intro i h1 h2
    rw [hr]
    cases i with
    | zero => omega
    | succ j =>
      have hj : j + 1 < m.order_book_state.length := by omega
      calc (draw :: m.order_book_state.dropLast).getD (j + 1) 0
          = m.order_book_state.dropLast.getD j 0 := rfl
        _ = m.order_book_state.getD j 0 := getD_dropLast _ j hj
        _ = m.order_book_state.getD (j + 1 - 1) 0 := by norm_num
  · rw [hr, List.sum_cons]
    have := sum_dropLast_getLastD m.order_book_state hne
    omega
  · rw [hl]
    simp only [List.length_append, List.length_tail, hlen, List.length_cons,
      List.length_nil]
    omega
  · rw [hl, ← htl]
    exact getD_append_at_length _ draw
  · intro i hi
    rw [hl]
    have h2 : i < m.order_book_state.tail.length := by omega
    rw [getD_append_left _ _ i h2, getD_tail]
  · rw [hl, List.sum_append]
    have := sum_headD_tail m.order_book_state hne
    simp only [List.sum_cons, List.sum_nil]
    omega

theorem c3_shift_frame_effect_witness :
    0 < exModel.K ∧ exModel.order_book_state.length = 2 * exModel.K
    ∧ (exModel.shift_order_book "right" 7).order_book_state.getD 1 0
        = exModel.order_book_state.getD 0 0 :=
  ⟨by decide, by decide,
   (c3_shift_frame_effect exModel (by decide) (by decide) 7).2.2.1 1 (by decide) (by decide)⟩

/-- C4: one evaluation of the reference-price transition changes the price
by 0 or by exactly one tick; the up move fires only under the theta gate
with an empty best ask (index K-1), the down move only with a non-empty
best ask and an empty best bid (index K), when both best levels are empty
the up move is taken, and the up and down moves exclude each other. -/
theorem c4_reference_price_controller (m : QueueReactiveModel) (hd : 0 < m.delta)
    (u : ℚ) (draw : ℤ) :
    ((m.update_reference_price u draw).reference_price = m.reference_price
      ∨ (m.update_reference_price u draw).reference_price = m.reference_price + m.delta
      ∨ (m.update_reference_price u draw).reference_price = m.reference_price - m.delta)
    ∧ ((m.update_reference_price u draw).reference_price = m.reference_price + m.delta
        → u < m.theta ∧ m.order_book_state.getD (m.K - 1) 0 = 0)
    ∧ ((m.update_reference_price u draw).reference_price = m.reference_price - m.delta
        → u < m.theta ∧ m.order_book_state.getD m.K 0 = 0
          ∧ ¬ m.order_book_state.getD (m.K - 1) 0 = 0)
    ∧ (u < m.theta → m.order_book_state.getD (m.K - 1) 0 = 0
        → (m.update_reference_price u draw).reference_price = m.reference_price + m.delta)
    ∧ ¬((m.update_reference_price u draw).reference_price = m.reference_price + m.delta
        ∧ (m.update_reference_price u draw).reference_price = m.reference_price - m.delta) := by
  unfold QueueReactiveModel.update_reference_price
  split_ifs with h1 h2 h3
  · rw [shift_keeps_reference_price]
    dsimp only
    refine ⟨Or.inr (Or.inl rfl), fun _ => ⟨h1, h2⟩, fun he => ?_, fun _ _ => rfl,
      fun he => ?_⟩
    · exfalso; linarith [he]
    · rcases he with ⟨e1, e2⟩
      rw [e1] at e2
      linarith
  · rw [shift_keeps_reference_price]
    dsimp only
    refine ⟨Or.inr (Or.inr rfl), fun he => ?_, fun _ => ⟨h1, h3, h2⟩,
      fun _ hask => absurd hask h2, fun he => ?_⟩
    · exfalso; linarith [he]
    · rcases he with ⟨e1, e2⟩
      rw [e1] at e2
      linarith
  · refine ⟨Or.inl rfl, fun he => ?_, fun he => ?_, fun _ hask => absurd hask h2,
      fun he => ?_⟩
    · exfalso; linarith [he]
    · exfalso; linarith [he]
    · rcases he with ⟨e1, e2⟩
      rw [e1] at e2
      linarith
  · refine ⟨Or.inl rfl, fun he => ?_, fun he => ?_, fun hu _ => absurd hu h1,
      fun he => ?_⟩
    · exfalso; linarith [he]
    · exfalso; linarith [he]
    · rcases he with ⟨e1, e2⟩
      rw [e1] at e2
      linarith

theorem c4_reference_price_controller_witness :
    0 < exModel.delta
    ∧ ((exModel.update_reference_price 0 9).reference_price = exModel.reference_price
      ∨ (exModel.update_reference_price 0 9).reference_price
          = exModel.reference_price + exModel.delta
      ∨ (exModel.update_reference_price 0 9).reference_price
          = exModel.reference_price - exModel.delta) :=
  ⟨by decide, (c4_reference_price_controller exModel (by decide) 0 9).1⟩

/-- C5: for every simulator state, every draw stream and every positive
step count, run_simulation raises instead of returning the promised list of
snapshots: the very first processed event reaches a model handler with the
side string produced by str on the OrderSide enum member, which the handler
rejects. -/
theorem c5_run_simulation_raises (sim : Simulator) (draws : Nat → StepDraws) (n : Nat) :
    ∃ msg, sim.run_simulation draws (n + 1) = Except.error msg := by
  obtain ⟨msg, hmsg⟩ := simulator_step_errors sim (draws 0)
  refine ⟨msg, ?_⟩
  unfold Simulator.run_simulation Simulator.run_simulation_from
  rw [hmsg]

/-- C6: the outcome of a full model simulation step, both the book state
and the reference price, is the same for every value of theta_reinit and
every realisation of the random draws: the code never performs the
re-initialisation the claim describes, for any theta_reinit. -/
theorem c6_step_independent_of_theta_reinit (m : QueueReactiveModel) (t1 t2 : ℚ)
    (kd : Fin 3) (sd : Fin 2) (ld vd : ℤ) (u : ℚ) (draw : ℤ) :
    (QueueReactiveModel.run_step { m with theta_reinit := t1 } kd sd ld vd u draw).map
        (fun m2 => (m2.order_book_state, m2.reference_price))
      = (QueueReactiveModel.run_step { m with theta_reinit := t2 } kd sd ld vd u draw).map
        (fun m2 => (m2.order_book_state, m2.reference_price)) := by
  rw [run_step_set_theta_reinit m t1, run_step_set_theta_reinit m t2]
  cases QueueReactiveModel.run_step m kd sd ld vd u draw <;> rfl

/-- C7: the matching book reached by adding a buy limit and a sell limit at
raw price 1 (which share the rounded price key 2) makes match_market_order
diverge on a buy market order of volume 2: the consumed resting ask cannot
be cancelled because cancel_order searches the bids dict, the zero-volume
head is rescanned forever, and no fuel bound suffices; the walk neither
stops on exhausted volume nor on exhausted liquidity. -/
theorem c7_match_market_order_diverges :
    ((emptyIndividualBook.add_order exOrderBuy).bind
        (fun b2 => b2.add_order exOrderSell) = Except.ok crossedBook)
    ∧ ∀ fuel, crossedBook.match_market_order exAggressor fuel = none := by
  refine ⟨crossedBook_reachable, ?_⟩
  intro fuel
  have hmm : crossedBook.match_market_order exAggressor fuel
      = (matchPricesLoop fuel OrderSide.buy [(2 : ℚ)] crossedBook 2 []).map
          (fun r => (r.1, r.2.2)) := rfl
  rw [hmm]
  have hpl : matchPricesLoop fuel OrderSide.buy [(2 : ℚ)] crossedBook 2 [] = none := by
    simp only [matchPricesLoop]
    rw [matchWhile_crossed_none fuel]
  rw [hpl]
  rfl

/-- C8 counterexample: the level book built from the constructor by two
limit additions at level 0 has both best quotes defined and equal to the
reference price 0, so the strict inequality best_bid < best_ask claimed for
all reachable books with both sides non-empty fails. -/
theorem c8_locked_book_counterexample :
    lockedBook.get_best_bid = some 0 ∧ lockedBook.get_best_ask = some 0
    ∧ ¬(∀ bb ba : ℚ, lockedBook.get_best_bid = some bb
          → lockedBook.get_best_ask = some ba → bb < ba) := by
  have hb : lockedBook.get_best_bid = some 0 := by
    have h : lockedBook.find_best_level OrderSide.buy = some 0 := by decide
    simp only [OrderBook.get_best_bid, h, Option.map_some']
    norm_num [lockedBook, OrderBook.update_queue_size, OrderBook.new_book]
  have ha : lockedBook.get_best_ask = some 0 := by
    have h : lockedBook.find_best_level OrderSide.sell = some 0 := by decide
    simp only [OrderBook.get_best_ask, h, Option.map_some']
    norm_num [lockedBook, OrderBook.update_queue_size, OrderBook.new_book]
  exact ⟨hb, ha, fun hall => absurd (hall 0 0 hb ha) (lt_irrefl 0)⟩

/-- C8 amended: for every level book with a positive tick size, whenever
both best quotes are defined, best_bid ≤ best_ask; the bid price formula
reference - level * tick and the ask formula reference + level * tick meet
exactly when both sides have their best level at index 0. -/
theorem c8_best_bid_le_best_ask (b : OrderBook) (ht : 0 < b.tick_size) (bb ba : ℚ)
    (hb : b.get_best_bid = some bb) (ha : b.get_best_ask = some ba) : bb ≤ ba := by
  unfold OrderBook.get_best_bid at hb
  unfold OrderBook.get_best_ask at ha
  rcases Option.map_eq_some'.mp hb with ⟨lb, hfb, hbb⟩
  rcases Option.map_eq_some'.mp ha with ⟨la, hfa, hba⟩
  have hc1 : (0:ℚ) ≤ (lb : ℚ) := by exact_mod_cast Nat.zero_le lb
  have hc2 : (0:ℚ) ≤ (la : ℚ) := by exact_mod_cast Nat.zero_le la
  have h1 : bb ≤ b.reference_price := by
    rw [← hbb]
    have hpos : 0 ≤ (lb : ℚ) * b.tick_size := mul_nonneg hc1 ht.le
    linarith
  have h2 : b.reference_price ≤ ba := by
    rw [← hba]
    have hpos : 0 ≤ (la : ℚ) * b.tick_size := mul_nonneg hc2 ht.le
    linarith
  linarith

theorem c8_best_bid_le_best_ask_witness :
    0 < lockedBook.tick_size ∧ lockedBook.get_best_bid = some 0
    ∧ lockedBook.get_best_ask = some 0 ∧ (0 : ℚ) ≤ 0 := by
  have hb : lockedBook.get_best_bid = some 0 := by
    have h : lockedBook.find_best_level OrderSide.buy = some 0 := by decide
    simp only [OrderBook.get_best_bid, h, Option.map_some']
    norm_num [lockedBook, OrderBook.update_queue_size, OrderBook.new_book]
  have ha : lockedBook.get_best_ask = some 0 := by
    have h : lockedBook.find_best_level OrderSide.sell = some 0 := by decide
    simp only [OrderBook.get_best_ask, h, Option.map_some']
    norm_num [lockedBook, OrderBook.update_queue_size, OrderBook.new_book]
  exact ⟨by decide, hb, ha, c8_best_bid_le_best_ask lockedBook (by decide) 0 0 hb ha⟩

/-- C9: on the reachable book holding a resting buy and a resting sell
whose raw price 1 lands on the shared rounded key 2, the sell identity 2 is
known to the identity index and its order rests in the asks queue, yet
cancel_order returns none and leaves the book unchanged, refuting that
cancel returns the removed order exactly when the identity is resting. -/
theorem c9_cancel_resting_order_returns_none :
    ((emptyIndividualBook.add_order exOrderBuy).bind
        (fun b2 => b2.add_order exOrderSell) = Except.ok crossedBook)
    ∧ idLookup crossedBook.order_id_to_price 2 = some 2
    ∧ dictFind crossedBook.asks 2 = some [exOrderSell]
    ∧ crossedBook.cancel_order 2 = (crossedBook, none) :=
  ⟨crossedBook_reachable, rfl, rfl, rfl⟩

/-- C10: for every keyword argument list, asking the factory for the
constant variant raises the abstract-class TypeError, because
ConstantIntensity defines the method _call rather than __call__ and so
never overrides the abstract evaluation operation, while a well-formed
variant such as limit_order instantiates fine. -/
theorem c10_constant_intensity_never_instantiable (kwargs : List (String × ℚ)) :
    create_intensity_function "constant" kwargs
        = Except.error "TypeError: abstract method not implemented"
    ∧ create_intensity_function "limit_order" kwargs
        = Except.ok PyIntensityClass.LimitOrderIntensity :=
  ⟨rfl, rfl⟩
